import Mathlib

/-!
Verification of the Limenime subtitle converter's ASS-resampling engine.

The repository contains several Go implementations of the same engine:
 * `part_000` (`scaleTags`, `processASS`, `generateOutputName`, ...),
 * `part_001` (`ProcessASS` with `processOverrideContent`, `splitByCommasN`,
   `tokenizePath`, `scalePathTokens`, `intRound`, `trimFloat`),
 * `part_002` (a second `processASS` with `processOverrides`, plus a verbatim
   copy of `part_000`'s engine),
 * `limesub/resampleASSv2.go` (`processASS` with `transformDrawing`).

This file gives a shallow embedding of the functions the claims are about.
Strings are modelled as `List Char`; Go `float64` values are modelled as
exact rationals (`Rat`); all arithmetic used by the theorems below is exact
in binary floating point as well, except where a doc comment says otherwise.
Go's multiline regular expressions over whole documents are rendered by the
equivalent line-by-line scans, as documented at each definition.
-/

attribute [local semireducible] Rat.mul Rat.add Rat.sub Rat.inv Rat.ofScientific

/-- Whitespace class used by Go's regexp `\s`, `strings.TrimSpace` and
`strings.Fields` for the ASCII inputs this development works with
(space, tab, newline, carriage return, vertical tab, form feed). -/
def goSpace (c : Char) : Bool :=
  c.toNat = 32 || c.toNat = 9 || c.toNat = 10 || c.toNat = 13 || c.toNat = 11 || c.toNat = 12

/-- Decimal digit test, Go regexp `\d` / `unicode.IsDigit` on ASCII
(codes 48-57). -/
def goDigit (c : Char) : Bool := 48 ≤ c.toNat && c.toNat ≤ 57

/-- ASCII letter test, Go regexp `[A-Za-z]` (codes 65-90 and 97-122). -/
def goAlpha (c : Char) : Bool :=
  (65 ≤ c.toNat && c.toNat ≤ 90) || (97 ≤ c.toNat && c.toNat ≤ 122)

/-- ASCII lowercasing of one character, `strings.ToLower` on ASCII. -/
def goLowerChar (c : Char) : Char :=
  if 65 ≤ c.toNat && c.toNat ≤ 90 then Char.ofNat (c.toNat + 32) else c

/-- `strings.ToLower` on ASCII strings. -/
def goLower (s : List Char) : List Char := s.map goLowerChar

/-- `strings.TrimSpace`. -/
def goTrim (s : List Char) : List Char :=
  ((s.dropWhile goSpace).reverse.dropWhile goSpace).reverse

/-- `strings.HasPrefix`. -/
def goHasPre (pat s : List Char) : Bool := pat.isPrefixOf s

/-- Count of occurrences of a character, used to reason about comma splits. -/
def countCh (c : Char) (s : List Char) : Nat := s.countP (· = c)

/-- Digit character for one decimal digit (Go's `%d` formatting, one digit). -/
def digitChar (n : Nat) : Char :=
  match n with
  | 0 => '0' | 1 => '1' | 2 => '2' | 3 => '3' | 4 => '4'
  | 5 => '5' | 6 => '6' | 7 => '7' | 8 => '8' | _ => '9'

/-- Numeric value of a decimal digit character. -/
def digitVal (c : Char) : Nat :=
  match c with
  | '0' => 0 | '1' => 1 | '2' => 2 | '3' => 3 | '4' => 4
  | '5' => 5 | '6' => 6 | '7' => 7 | '8' => 8 | _ => 9

/-- Decimal rendering of a natural number (fuel-based so that it reduces in
the kernel; the fuel `n+1` always suffices since `n / 10 < n`). -/
def natToStrAux : Nat → Nat → List Char
  | 0, _ => []
  | fuel + 1, n =>
      if n < 10 then [digitChar n]
      else natToStrAux fuel (n / 10) ++ [digitChar (n % 10)]

/-- Go `fmt.Sprintf("%d", n)` / `strconv.Itoa` for a natural number. -/
def natToStr (n : Nat) : List Char := natToStrAux (n + 1) n

/-- Go `fmt.Sprintf("%d", i)` / `strconv.Itoa` for an integer. -/
def intToStr (i : Int) : List Char :=
  if i < 0 then '-' :: natToStr i.natAbs else natToStr i.toNat

/-- Accumulating decimal parse (the value of a digit string). -/
def parseNatAcc (acc : Nat) : List Char → Nat
  | [] => acc
  | c :: cs => parseNatAcc (acc * 10 + digitVal c) cs

/-- Unsigned part of Go `strconv.ParseFloat`: `digits[.digits]`, `.digits`
or `digits.`; exponents, hex floats and inf/NaN are not modelled (no input
in this repository produces them). -/
def parseUnsigned (s : List Char) : Option Rat :=
  let ip := s.takeWhile goDigit
  let rest := s.dropWhile goDigit
  match rest with
  | [] => if ip.isEmpty then none else some (parseNatAcc 0 ip : Nat)
  | '.' :: fr =>
      if fr.all goDigit && !(ip.isEmpty && fr.isEmpty) then
        some ((parseNatAcc 0 ip : Nat) + (parseNatAcc 0 fr : Nat) / (10 ^ fr.length : Nat))
      else none
  | _ => none

/-- Go `strconv.ParseFloat` (decimal forms only, see `parseUnsigned`);
floating-point values are modelled as exact rationals. -/
def parseFloatGo (s : List Char) : Option Rat :=
  match s with
  | [] => parseUnsigned []
  | c :: rest =>
      if c = '+' then parseUnsigned rest
      else if c = '-' then (parseUnsigned rest).map Neg.neg
      else parseUnsigned (c :: rest)

/-- part_000 `parseFloatSafe`: trim, empty or unparseable falls back to the
default. -/
def parseFloatSafe (s : List Char) (dflt : Rat) : Rat :=
  let t := goTrim s
  if t.isEmpty then dflt else
  match parseFloatGo t with
  | some v => v
  | none => dflt

/-- Round a nonnegative rational to the nearest integer, ties to even: the
rounding Go's `fmt` uses when printing a `%.Nf` fixed-point value.  (For a
binary `float64` the rounding applies to the exact binary value; every
concrete number used in the theorems below is exactly representable, so the
rational model agrees with Go.) -/
def rndHalfEven (q : Rat) : Int :=
  let f := q.floor
  let r := q - (f : Rat)
  if r < 1/2 then f
  else if (1:Rat)/2 < r then f + 1
  else if f % 2 = 0 then f else f + 1

/-- Left-pad a digit string with zeros to the given width. -/
def padZeros (w : Nat) (ds : List Char) : List Char :=
  List.replicate (w - ds.length) '0' ++ ds

/-- Go `fmt.Sprintf("%.<prec>f", v)` (also `strconv.FormatFloat(v,'f',prec,64)`)
on the exact-rational model of `v`. -/
def fmtFixed (prec : Nat) (v : Rat) : List Char :=
  let neg := v < 0
  let a := if v < 0 then -v else v
  let m := (rndHalfEven (a * ((10 ^ prec : Nat) : Rat))).toNat
  let ip := m / 10 ^ prec
  let fp := m % 10 ^ prec
  (if neg then ['-'] else []) ++ natToStr ip ++
    (if prec = 0 then [] else '.' :: padZeros prec (natToStr fp))

/-- Go `strings.TrimRight(s, cutset)` for a one-character cutset. -/
def goTrimRight (c : Char) (s : List Char) : List Char :=
  (s.reverse.dropWhile (· = c)).reverse

/-- part_000 `scaleFloatFormat`: integers are printed as `%d`, other values
as `%.2f` with trailing zeros and a trailing dot stripped.  The Go guard
`float64(int64(v)) == v` holds exactly when the value is an integer, which
in the rational model is `v.den = 1`. -/
def scaleFloatFormat (v : Rat) : List Char :=
  if v.den = 1 then intToStr v.num
  else goTrimRight '.' (goTrimRight '0' (fmtFixed 2 v))

/-- part_000 `scaleNumberString`: parse, scale, reformat; on a parse error
the original substring is returned. -/
def scaleNumberString (numStr : List Char) (scale : Rat) : List Char :=
  match parseFloatGo numStr with
  | none => numStr
  | some f => scaleFloatFormat (f * scale)

/-- part_001 `trimFloat`: `%.6f`, trailing zeros then trailing dot stripped,
empty result replaced by "0". -/
def trimFloat (v : Rat) : List Char :=
  let s := goTrimRight '.' (goTrimRight '0' (fmtFixed 6 v))
  if s.isEmpty then ['0'] else s

/-- part_001 `intRound`: `strconv.Itoa(int(math.Floor(v + 0.5)))`, i.e.
round half-up to an integer. -/
def intRound (v : Rat) : List Char := intToStr (v + 1/2).floor

/-- Go `int(q)` conversion: truncation toward zero. -/
def goTruncInt (q : Rat) : Int := q.num / (q.den : Int)

/-- The fixed target font name of the converter. -/
def targetFontName : List Char := ("Basic Comical NC".data)

/-- Match of the regexp fragment `-?\d+(\.\d+)?` anchored at the front of the
input, without the optional sign: the digit part with optional fraction.
Returns the matched characters and the remaining input. -/
def scanNumCore (s : List Char) : Option (List Char × List Char) :=
  let ds := s.takeWhile goDigit
  let r1 := s.dropWhile goDigit
  if ds.isEmpty then none
  else
    match r1 with
    | '.' :: r2 =>
        let fs := r2.takeWhile goDigit
        if fs.isEmpty then some (ds, r1)
        else some (ds ++ '.' :: fs, r2.dropWhile goDigit)
    | _ => some (ds, r1)

/-- Match of `-?\d+(\.\d+)?` anchored at the front of the input (the number
shape used by all of part_000's tag regexes). -/
def scanNum : List Char → Option (List Char × List Char)
  | [] => none
  | c :: cs =>
      if c = '-' then
        match scanNumCore cs with
        | some (ds, rest) => some ('-' :: ds, rest)
        | none => none
      else scanNumCore (c :: cs)

/-- part_000 `scaleXYList` body: walk the string, replacing each
non-overlapping leftmost match of `-?\d+(\.\d+)?`; the `count` of numbers
seen so far alternates the ratio (even = ratioX, odd = ratioY).  Command
letters and any other text are copied through and do not touch the counter.
Fuel = remaining string length, which always suffices. -/
def scaleXYListGo (rx ry : Rat) : Nat → Nat → List Char → List Char
  | 0, _, s => s
  | _ + 1, _, [] => []
  | f + 1, cnt, c :: cs =>
      match scanNum (c :: cs) with
      | some (num, rest) =>
          (match parseFloatGo num with
           | none => num
           | some v => scaleFloatFormat (v * (if cnt % 2 = 0 then rx else ry)))
          ++ scaleXYListGo rx ry f (cnt + 1) rest
      | none => c :: scaleXYListGo rx ry f cnt cs

/-- part_000 `scaleXYList`. -/
def scaleXYList (rx ry : Rat) (s : List Char) : List Char :=
  scaleXYListGo rx ry s.length 0 s

/-- Go `strings.Fields` (split on runs of whitespace). -/
def goFieldsGo : List Char → List Char → List (List Char)
  | [], cur => if cur.isEmpty then [] else [cur.reverse]
  | c :: cs, cur =>
      if goSpace c then
        if cur.isEmpty then goFieldsGo cs [] else cur.reverse :: goFieldsGo cs []
      else goFieldsGo cs (c :: cur)

/-- Go `strings.Fields`. -/
def goFields (s : List Char) : List (List Char) := goFieldsGo s []

/-- resampleASSv2 `transformDrawing`, token walk: numeric tokens are shifted
and scaled with an alternating x/y flag, single-letter commands in
`mnlbspc` (after lowercasing) reset the flag to x and are emitted
lowercased, all other tokens pass through. -/
def tdTok (shiftX shiftY sx sy : Rat) : Bool → List (List Char) → List (List Char)
  | _, [] => []
  | isX, tok :: rest =>
      match parseFloatGo tok with
      | some v =>
          fmtFixed 3 (if isX then (v + shiftX) * sx else (v + shiftY) * sy)
            :: tdTok shiftX shiftY sx sy (!isX) rest
      | none =>
          if tok.length = 1 then
            let c := goLower tok
            if c.all (fun ch => ("mnlbspc".data).contains ch) then
              c :: tdTok shiftX shiftY sx sy true rest
            else tok :: tdTok shiftX shiftY sx sy isX rest
          else tok :: tdTok shiftX shiftY sx sy isX rest

/-- resampleASSv2 `transformDrawing` (lines 89-120): `strings.Fields`, then
the token walk, then `strings.Join(out, " ")`. -/
def transformDrawing (shiftX shiftY sx sy : Rat) (s : List Char) : List Char :=
  List.intercalate [' '] (tdTok shiftX shiftY sx sy true (goFields s))

/-- part_001 `splitByCommasN` main scan: cut at commas while fewer than
`n - 1` separators have been used; every emitted part is `TrimSpace`d. -/
def sbcGo (n : Nat) : List Char → List Char → Nat → List (List Char)
  | [], cur, _ => [goTrim cur]
  | c :: cs, cur, count =>
      if c = ',' && count < n - 1 then goTrim cur :: sbcGo n cs [] (count + 1)
      else sbcGo n cs (cur ++ [c]) count

/-- Go `strings.Split(s, sep)` for a one-character separator. -/
def splitChGo (sep : Char) : List Char → List Char → List (List Char)
  | [], cur => [cur]
  | c :: cs, cur =>
      if c = sep then cur :: splitChGo sep cs []
      else splitChGo sep cs (cur ++ [c])

/-- Go `strings.Split(s, sep)` for a one-character separator. -/
def splitCh (sep : Char) (s : List Char) : List (List Char) := splitChGo sep s []

/-- part_001 `splitByCommasN` (lines 117-142): split into exactly `n` parts
at the first `n-1` commas; if fewer parts result, fall back to a plain
trimmed `strings.Split`. -/
def splitByCommasN (s : List Char) (n : Nat) : List (List Char) :=
  if n ≤ 1 then [s]
  else
    let res := sbcGo n s [] 0
    if res.length < n then (splitCh ',' s).map goTrim else res

/-- part_001 `tokenizePath` builder loop (lines 181-207): insert a space
before a letter when the builder does not already end in one, and after it
when the next input character is not a space. -/
def tokPathGo : List Char → List Char → List Char
  | acc, [] => acc
  | acc, c :: cs =>
      if goAlpha c then
        let acc1 := if acc.length > 0 && acc.getLast? ≠ some ' ' then acc ++ [' '] else acc
        let acc2 := acc1 ++ [c]
        let acc3 :=
          match cs with
          | d :: _ => if d ≠ ' ' then acc2 ++ [' '] else acc2
          | [] => acc2
        tokPathGo acc3 cs
      else tokPathGo (acc ++ [c]) cs

/-- part_001 `tokenizePath`: the builder loop followed by `strings.Fields`. -/
def tokenizePath (s : List Char) : List (List Char) := goFields (tokPathGo [] s)

/-- part_001 `scalePathTokens` loop (lines 210-231).  The guard
`numberRe.MatchString(tok)` with `numberRe` = `[+-]?\d*\.?\d+` holds exactly
when the token contains a decimal digit; the token is only scaled (and the
x/y index advanced) when the whole token additionally parses as a float. -/
def sptGo (RX RY : Rat) : Nat → List (List Char) → List (List Char)
  | _, [] => []
  | xyIdx, tok :: rest =>
      if tok.any goDigit then
        match parseFloatGo tok with
        | some fv =>
            trimFloat (fv * (if xyIdx % 2 = 0 then RX else RY)) :: sptGo RX RY (xyIdx + 1) rest
        | none => tok :: sptGo RX RY xyIdx rest
      else tok :: sptGo RX RY xyIdx rest

/-- part_001 `scalePathTokens`: token walk then `strings.Join(out, " ")`. -/
def scalePathTokens (RX RY : Rat) (toks : List (List Char)) : List Char :=
  List.intercalate [' '] (sptGo RX RY 0 toks)

/-- Match of part_001's `numberRe` = `[+-]?\d*\.?\d+` anchored at the front
of the input: optional sign, optional integer digits, optional dot, at
least one digit in the last group reached. -/
def scanNum001 (s : List Char) : Option (List Char × List Char) :=
  let core := fun (t : List Char) =>
    let ds := t.takeWhile goDigit
    let r1 := t.dropWhile goDigit
    match r1 with
    | '.' :: r2 =>
        let fs := r2.takeWhile goDigit
        if fs.isEmpty then
          if ds.isEmpty then none else some (ds, r1)
        else some (ds ++ '.' :: fs, r2.dropWhile goDigit)
    | _ => if ds.isEmpty then none else some (ds, r1)
  match s with
  | '+' :: rest => (core rest).map (fun p => ('+' :: p.1, p.2))
  | '-' :: rest => (core rest).map (fun p => ('-' :: p.1, p.2))
  | _ => core s

/-- Non-overlapping leftmost matches of part_001's `numberRe` in a string
(`FindAllString`). -/
def findAllNums001Go : Nat → List Char → List (List Char)
  | 0, _ => []
  | _ + 1, [] => []
  | f + 1, c :: cs =>
      match scanNum001 (c :: cs) with
      | some (num, rest) => num :: findAllNums001Go f rest
      | none => findAllNums001Go f cs

/-- `numberRe.FindAllString(s, -1)` of part_001. -/
def findAllNums001 (s : List Char) : List (List Char) := findAllNums001Go s.length s

/-- Go `strings.Replace(s, old, new, 1)`: replace the first occurrence. -/
def replFirstGo (old new : List Char) : Nat → List Char → List Char
  | 0, s => s
  | _ + 1, [] => []
  | f + 1, c :: cs =>
      if goHasPre old (c :: cs) then new ++ (c :: cs).drop old.length
      else c :: replFirstGo old new f cs

/-- Go `strings.Replace(s, old, new, 1)`. -/
def replFirst (old new s : List Char) : List Char := replFirstGo old new s.length s

/-- part_001 `scaleXYAlternating` (lines 145-177): find all `numberRe`
matches, then for each parsed one replace its first occurrence in the
running string with the scaled value; even index = RX, odd = RY, with
integer rounding when the corresponding flag is set. -/
def scaleXYAlt001Go (RX RY : Rat) (pX pY : Bool) : Nat → List Char → List (List Char) → List Char
  | _, out, [] => out
  | idx, out, nm :: rest =>
      match parseFloatGo nm with
      | none => scaleXYAlt001Go RX RY pX pY idx out rest
      | some fv =>
          let rep :=
            if idx % 2 = 0 then (if pX then intRound (fv * RX) else trimFloat (fv * RX))
            else (if pY then intRound (fv * RY) else trimFloat (fv * RY))
          scaleXYAlt001Go RX RY pX pY (idx + 1) (replFirst nm rep out) rest

/-- part_001 `scaleXYAlternating`. -/
def scaleXYAlt001 (RX RY : Rat) (pX pY : Bool) (s : List Char) : List Char :=
  scaleXYAlt001Go RX RY pX pY 0 s (findAllNums001 s)

/-- part_001 `processOverrideContent`, `\clip` branch body (lines 278-316;
the `\iclip` branch in lines 318-345 is identical with `fn` = `iclip`),
applied to the regex capture after its `strings.TrimSpace`: a
content with any letter is a vector clip — split at the first comma, keep
the first (scale-level) part verbatim and scale only the path tokens after
it; otherwise try the four-number rectangle, else the alternating fallback.
Parse errors in the rectangle branch yield 0 (`x1, _ := strconv.ParseFloat`). -/
def clip001Inside (fn : List Char) (RX RY : Rat) (inside : List Char) : List Char :=
  if inside.any goAlpha then
    let parts := splitByCommasN inside 2
    if parts.length ≥ 2 then
      let scaleTok := goTrim (parts.getD 0 [])
      let restTok := goTrim (parts.getD 1 [])
      let scaled := scalePathTokens RX RY (tokenizePath restTok)
      '\\' :: fn ++ '(' :: scaleTok ++ (", ".data) ++ scaled ++ [')']
    else
      '\\' :: fn ++ '(' :: scalePathTokens RX RY (tokenizePath inside) ++ [')']
  else
    let parts := splitByCommasN inside 4
    if parts.length ≥ 4 then
      let x1 := (parseFloatGo (parts.getD 0 [])).getD 0
      let y1 := (parseFloatGo (parts.getD 1 [])).getD 0
      let x2 := (parseFloatGo (parts.getD 2 [])).getD 0
      let y2 := (parseFloatGo (parts.getD 3 [])).getD 0
      '\\' :: fn ++ '(' :: trimFloat (x1 * RX) ++ ',' :: trimFloat (y1 * RY)
        ++ ',' :: trimFloat (x2 * RX) ++ ',' :: trimFloat (y2 * RY) ++ [')']
    else '\\' :: fn ++ '(' :: scaleXYAlt001 RX RY false false inside ++ [')']

/-- part_001 style-table fontsize rewrite (lines 566-575): a parsed value is
replaced by `intRound(v * RY)`, anything else is left alone. -/
def fontsize001 (RY : Rat) (field : List Char) : List Char :=
  match parseFloatGo field with
  | some v => intRound (v * RY)
  | none => field

/-- part_001 dialogue margin rewrite (lines 666-680): a parsed value is
replaced by `intRound(v * r)` with `r` the axis ratio. -/
def margin001 (r : Rat) (field : List Char) : List Char :=
  match parseFloatGo field with
  | some v => intRound (v * r)
  | none => field

/-- Consume a literal character sequence, returning the rest. -/
def dropLit : List Char → List Char → Option (List Char)
  | [], s => some s
  | _ :: _, [] => none
  | p :: ps, c :: cs => if c = p then dropLit ps cs else none

/-- Consume Go regexp `\s*`. -/
def skipWs (s : List Char) : List Char := s.dropWhile goSpace

/-- Generic Go `Regexp.ReplaceAllStringFunc` driver for a pure rewrite: at
each position try an anchored match; on success emit the rewrite and resume
after the match, otherwise copy one character.  Fuel = string length, which
bounds the number of scan steps since every pattern here consumes at least
one character. -/
def replAllGo (try' : List Char → Option (List Char × List Char)) : Nat → List Char → List Char
  | 0, s => s
  | _ + 1, [] => []
  | f + 1, c :: cs =>
      match try' (c :: cs) with
      | some (rep, rest) => rep ++ replAllGo try' f rest
      | none => c :: replAllGo try' f cs

/-- Generic `ReplaceAllStringFunc` over a whole string. -/
def replAll (try' : List Char → Option (List Char × List Char)) (s : List Char) : List Char :=
  replAllGo try' s.length s

/-- Whether an anchored matcher matches anywhere (`Regexp.MatchString`). -/
def anyMatchGo (try' : List Char → Option (List Char × List Char)) : Nat → List Char → Bool
  | 0, _ => false
  | _ + 1, [] => false
  | f + 1, c :: cs => (try' (c :: cs)).isSome || anyMatchGo try' f cs

/-- `Regexp.MatchString` for an anchored matcher. -/
def anyMatch (try' : List Char → Option (List Char × List Char)) (s : List Char) : Bool :=
  anyMatchGo try' s.length s

/-- part_000 `reFs` = `\fs(-?\d+(\.\d+)?)`, rewrite by ratioY.  (On `\fsp`
the digit fails to follow `\fs`, so this pattern cannot fire there.) -/
def tryFs (ry : Rat) (s : List Char) : Option (List Char × List Char) := do
  let r ← dropLit (("\\fs").data) s
  let (num, rest) ← scanNum r
  some ((("\\fs").data) ++ scaleNumberString num ry, rest)

/-- part_000 `reFsp` = `\fsp(-?\d+(\.\d+)?)`, rewrite by ratioY. -/
def tryFsp (ry : Rat) (s : List Char) : Option (List Char × List Char) := do
  let r ← dropLit (("\\fsp").data) s
  let (num, rest) ← scanNum r
  some ((("\\fsp").data) ++ scaleNumberString num ry, rest)

/-- part_000 `rePos`/`reOrg` = `\<nm>\(\s*(num)\s*,\s*(num)\s*\)`, x scaled
by rx and y by ry. -/
def tryPairTag (nm : List Char) (rx ry : Rat) (s : List Char) : Option (List Char × List Char) := do
  let r1 ← dropLit ('\\' :: nm ++ ['(']) s
  let (x, r2) ← scanNum (skipWs r1)
  let r3 ← dropLit [','] (skipWs r2)
  let (y, r4) ← scanNum (skipWs r3)
  let r5 ← dropLit [')'] (skipWs r4)
  some ('\\' :: nm ++ '(' :: scaleNumberString x rx ++ ',' :: scaleNumberString y ry ++ [')'], r5)

/-- part_000 `reMove` = `\move\(\s*(num)\s*,\s*(num)\s*,\s*(num)\s*,\s*(num)([^)]*)\)`:
the four coordinates scale as x,y,x,y and the tail capture is kept verbatim. -/
def tryMove (rx ry : Rat) (s : List Char) : Option (List Char × List Char) := do
  let r1 ← dropLit (("\\move(").data) s
  let (x1, r2) ← scanNum (skipWs r1)
  let r3 ← dropLit [','] (skipWs r2)
  let (y1, r4) ← scanNum (skipWs r3)
  let r5 ← dropLit [','] (skipWs r4)
  let (x2, r6) ← scanNum (skipWs r5)
  let r7 ← dropLit [','] (skipWs r6)
  let (y2, r8) ← scanNum (skipWs r7)
  let tail := r8.takeWhile (· ≠ ')')
  let r9 ← dropLit [')'] (r8.dropWhile (· ≠ ')'))
  some ((("\\move(").data) ++ scaleNumberString x1 rx ++ ',' :: scaleNumberString y1 ry
          ++ ',' :: scaleNumberString x2 rx ++ ',' :: scaleNumberString y2 ry ++ tail ++ [')'],
        r9)

/-- Non-overlapping leftmost matches of part_000's number regexp
`-?\d+(\.\d+)?` in a string (`FindAllString`). -/
def findAllNumsGo : Nat → List Char → List (List Char)
  | 0, _ => []
  | _ + 1, [] => []
  | f + 1, c :: cs =>
      match scanNum (c :: cs) with
      | some (num, rest) => num :: findAllNumsGo f rest
      | none => findAllNumsGo f cs

/-- `FindAllString` for `-?\d+(\.\d+)?`. -/
def findAllNums (s : List Char) : List (List Char) := findAllNumsGo s.length s

/-- Go `regexp.MustCompile(regexp.QuoteMeta(old)).ReplaceAllString(s, new)`:
replace every non-overlapping occurrence of the literal `old`. -/
def replSubGo (old new : List Char) : Nat → List Char → List Char
  | 0, s => s
  | _ + 1, [] => []
  | f + 1, c :: cs =>
      if goHasPre old (c :: cs) then new ++ replSubGo old new f ((c :: cs).drop old.length)
      else c :: replSubGo old new f cs

/-- Replace every occurrence of a literal substring. -/
def replSub (old new s : List Char) : List Char := replSubGo old new s.length s

/-- part_000 `reClip` replacement body (lines 165-189) for the trimmed
capture: a capture starting with a letter is scaled as an alternating list;
otherwise with at least four numbers, each of the first four number strings
is globally substituted by its scaled value (the Go code builds a
`QuoteMeta` regexp from the number text and calls `ReplaceAllString`, which
rewrites every occurrence of that text, not just the intended one); with
fewer numbers the alternating fallback applies. -/
def clipBody000 (rx ry : Rat) (fn cap : List Char) : List Char :=
  let content := goTrim cap
  if content.length > 0 && goAlpha (content.headD ' ') then
    '\\' :: fn ++ '(' :: scaleXYList rx ry content ++ [')']
  else
    match findAllNums content with
    | n0 :: n1 :: n2 :: n3 :: _ =>
        let o1 := replSub n0 (scaleNumberString n0 rx) content
        let o2 := replSub n1 (scaleNumberString n1 ry) o1
        let o3 := replSub n2 (scaleNumberString n2 rx) o2
        let o4 := replSub n3 (scaleNumberString n3 ry) o3
        '\\' :: fn ++ '(' :: o4 ++ [')']
    | _ => '\\' :: fn ++ '(' :: scaleXYList rx ry content ++ [')']

/-- part_000 `reClip` = `\(i?clip)\(\s*([^\)]*)\s*\)`: the optional `i` is
tried first, the capture runs to the first closing parenthesis. -/
def tryClip (rx ry : Rat) (s : List Char) : Option (List Char × List Char) :=
  let core := fun (fn : List Char) (r1 : List Char) =>
    let r2 := skipWs r1
    let cap := r2.takeWhile (· ≠ ')')
    match r2.dropWhile (· ≠ ')') with
    | ')' :: rest => some (clipBody000 rx ry fn cap, rest)
    | _ => none
  match dropLit (("\\iclip(").data) s with
  | some r1 => core (("iclip").data) r1
  | none =>
      match dropLit (("\\clip(").data) s with
      | some r1 => core (("clip").data) r1
      | none => none

/-- part_000 `rePixel` = `\(bord|shad|be|blur)(-?\d+(\.\d+)?)`, rewrite by
ratioY; the alternatives are tried in the regexp's order (their second
letters differ, so at most one can match). -/
def tryPixel (ry : Rat) (s : List Char) : Option (List Char × List Char) := do
  let r ← dropLit ['\\'] s
  let tryWord := fun (w : List Char) =>
    match dropLit w r with
    | some r1 =>
        match scanNum r1 with
        | some (num, rest) => some ('\\' :: w ++ scaleNumberString num ry, rest)
        | none => none
    | none => none
  match tryWord (("bord").data) with
  | some res => some res
  | none =>
      match tryWord (("shad").data) with
      | some res => some res
      | none =>
          match tryWord (("be").data) with
          | some res => some res
          | none => tryWord (("blur").data)

/-- part_000 `reMargins` = `\margins\(\s*(num)\s*,\s*(num)\s*,\s*(num)\s*,\s*(num)\s*\)`:
l and r scale by ratioX, t and b by ratioY. -/
def tryMargins (rx ry : Rat) (s : List Char) : Option (List Char × List Char) := do
  let r1 ← dropLit (("\\margins(").data) s
  let (l, r2) ← scanNum (skipWs r1)
  let r3 ← dropLit [','] (skipWs r2)
  let (r, r4) ← scanNum (skipWs r3)
  let r5 ← dropLit [','] (skipWs r4)
  let (t, r6) ← scanNum (skipWs r5)
  let r7 ← dropLit [','] (skipWs r6)
  let (b, r8) ← scanNum (skipWs r7)
  let r9 ← dropLit [')'] (skipWs r8)
  some ((("\\margins(").data) ++ scaleNumberString l rx ++ ',' :: scaleNumberString r rx
          ++ ',' :: scaleNumberString t ry ++ ',' :: scaleNumberString b ry ++ [')'], r9)

/-- part_000 `reMarginSingle` = `\margin([lrvbt])(-?\d+(\.\d+)?)`: sides l,r
scale by ratioX, the rest by ratioY. -/
def tryMarginSingle (rx ry : Rat) (s : List Char) : Option (List Char × List Char) := do
  let r ← dropLit (("\\margin").data) s
  match r with
  | side :: r1 =>
      if side = 'l' || side = 'r' || side = 'v' || side = 'b' || side = 't' then do
        let (num, rest) ← scanNum r1
        let ratio := if side = 'l' || side = 'r' then rx else ry
        some ((("\\margin").data) ++ side :: scaleNumberString num ratio, rest)
      else none
  | [] => none

/-- part_000 `reFax` = `\fax(-?\d+(\.\d+)?)`, rewrite by ratioX. -/
def tryFax (rx : Rat) (s : List Char) : Option (List Char × List Char) := do
  let r ← dropLit (("\\fax").data) s
  let (num, rest) ← scanNum r
  some ((("\\fax").data) ++ scaleNumberString num rx, rest)

/-- part_000 `reFay` = `\fay(-?\d+(\.\d+)?)`, rewrite by ratioY. -/
def tryFay (ry : Rat) (s : List Char) : Option (List Char × List Char) := do
  let r ← dropLit (("\\fay").data) s
  let (num, rest) ← scanNum r
  some ((("\\fay").data) ++ scaleNumberString num ry, rest)

/-- part_000 `scaleTags` (lines 118-235) up to but excluding the trailing
`\t(...)` loop: the eleven regexp replacement passes, applied in source
order. -/
def scaleTagsPre (rx ry : Rat) (s : List Char) : List Char :=
  let s1 := replAll (tryFs ry) s
  let s2 := replAll (tryFsp ry) s1
  let s3 := replAll (tryPairTag (("pos").data) rx ry) s2
  let s4 := replAll (tryPairTag (("org").data) rx ry) s3
  let s5 := replAll (tryMove rx ry) s4
  let s6 := replAll (tryClip rx ry) s5
  let s7 := replAll (tryPixel ry) s6
  let s8 := replAll (tryMargins rx ry) s7
  let s9 := replAll (tryMarginSingle rx ry) s8
  let s10 := replAll (tryFax rx) s9
  replAll (tryFay ry) s10

/-- part_000 `reT` = `\t\(([^)]*)\)` anchored at the front of the input:
returns the capture (up to the first closing parenthesis) and the rest. -/
def tTry (s : List Char) : Option (List Char × List Char) := do
  let r ← dropLit (("\\t(").data) s
  let inner := r.takeWhile (· ≠ ')')
  match r.dropWhile (· ≠ ')') with
  | ')' :: rest => some (inner, rest)
  | _ => none

/-- `reT.MatchString`. -/
def tMatch (s : List Char) : Bool := anyMatch tTry s

/-- The reassembled transform tag `\t(` ++ l ++ `)`. -/
def tWrap (l : List Char) : List Char := ("\\t(").data ++ l ++ [')']

/-- `ReplaceAllStringFunc` driver whose rewrite callback may itself fail to
terminate (it calls the recursive tag scaler): the whole replacement then
has no value either.  Fuel = string length, as in `replAllGo`. -/
def replAllOGo (try' : List Char → Option (List Char × List Char))
    (body : List Char → Option (List Char)) : Nat → List Char → Option (List Char)
  | 0, s => some s
  | _ + 1, [] => some []
  | f + 1, c :: cs =>
      match try' (c :: cs) with
      | some (inner, rest) => do
          let rep ← body inner
          let tail ← replAllOGo try' body f rest
          some (rep ++ tail)
      | none => do
          let tail ← replAllOGo try' body f cs
          some (c :: tail)

/-- part_000 `scaleTags` with an explicit fuel bound on the number of
recursive calls and loop iterations.  `mode = true` is entry into
`scaleTags` (the eleven passes, then the `\t` loop); `mode = false` is the
head of the `for reT.MatchString(s)` loop of lines 240-257.  The rewrite
callback mirrors lines 241-256: split the capture at its first backslash
(`strings.Index(inner, "\\")`), keep the prefix, and run the full
`scaleTags` on the tags part (or, with no backslash, on the whole capture).
The Go function returns a value exactly when some fuel makes this embedding
return `some`; `none` for every fuel is non-termination. -/
def engF (rx ry : Rat) : Nat → Bool → List Char → Option (List Char)
  | 0, _, _ => none
  | fuel + 1, true, s => engF rx ry fuel false (scaleTagsPre rx ry s)
  | fuel + 1, false, s =>
      if tMatch s then
        match replAllOGo tTry
            (fun inner =>
              match inner.findIdx? (· = '\\') with
              | some i => (engF rx ry fuel true (inner.drop i)).map
                  (fun t => tWrap (inner.take i ++ t))
              | none => (engF rx ry fuel true inner).map tWrap)
            s.length s with
        | none => none
        | some s' => engF rx ry fuel false s'
      else some s

/-- part_000 `scaleTags` itself (fuel-indexed). -/
def scaleTagsF (rx ry : Rat) (fuel : Nat) (s : List Char) : Option (List Char) :=
  engF rx ry fuel true s

/-- The rewrite callback of the `\t` loop (the lambda inside `engF`), for
stating facts about a single `ReplaceAllStringFunc` pass. -/
def tBodyF (rx ry : Rat) (fuel : Nat) (inner : List Char) : Option (List Char) :=
  match inner.findIdx? (· = '\\') with
  | some i => (engF rx ry fuel true (inner.drop i)).map (fun t => tWrap (inner.take i ++ t))
  | none => (engF rx ry fuel true inner).map tWrap

/-- One iteration of the `\t` loop body of part_000 `scaleTags`
(lines 240-257): a single `reT.ReplaceAllStringFunc` pass. -/
def tPass (rx ry : Rat) (fuel : Nat) (s : List Char) : Option (List Char) :=
  replAllOGo tTry (tBodyF rx ry fuel) s.length s

/-- part_000 `reOverride` = `\{[^}]*\}` anchored at the front of the input:
returns the capture between the braces and the rest. -/
def ovTry (s : List Char) : Option (List Char × List Char) := do
  let r ← dropLit ['\x7b'] s
  let inner := r.takeWhile (· ≠ '\x7d')
  match r.dropWhile (· ≠ '\x7d') with
  | _ :: rest => some (inner, rest)
  | [] => none

/-- part_000 `reFn` = `\fn[^\\}]+`, replacement `\fn` ++ target font. -/
def tryFn (s : List Char) : Option (List Char × List Char) := do
  let r ← dropLit (("\\fn").data) s
  let body := r.takeWhile (fun c => c ≠ '\\' && c ≠ '\x7d')
  if body.isEmpty then none
  else some ((("\\fn").data) ++ targetFontName, r.drop body.length)

/-- part_000 override-block callback (processASS lines 486-496): replace any
`\fn...` by the target font when present, then run `scaleTags` on the block
content, and re-brace. -/
def ovBody000 (rx ry : Rat) (fuel : Nat) (inner : List Char) : Option (List Char) :=
  let i1 := if anyMatch tryFn inner then replAll tryFn inner else inner
  (scaleTagsF rx ry fuel i1).map (fun r => '\x7b' :: r ++ ['\x7d'])

/-- part_000 `splitNPreserveTrailing` scan (lines 45-63): cut at the
separator while `count < n`, starting from `count = 1`; every part is
`TrimSpace`d. -/
def snptGo (sep : Char) (n : Nat) : List Char → List Char → Nat → List (List Char)
  | [], cur, _ => [goTrim cur]
  | c :: cs, cur, count =>
      if c = sep && count < n then goTrim cur :: snptGo sep n cs [] (count + 1)
      else snptGo sep n cs (cur ++ [c]) count

/-- part_000 `splitNPreserveTrailing`. -/
def splitNPT (s : List Char) (sep : Char) (n : Nat) : List (List Char) :=
  if n = 0 then [s] else snptGo sep n s [] 1

/-- Whether a line enters part_000's dialogue branch (processASS line 474):
the trimmed, lowercased line starts with `dialogue:`. -/
def isDialogue000 (ln : List Char) : Bool := goHasPre (("dialogue:").data) (goLower (goTrim ln))

/-- part_000 `processASS` treatment of one events-section line
(lines 472-503): non-dialogue lines and dialogue lines with fewer than 10
comma-separated parts pass through unchanged; otherwise the tenth part
(the text field) has each `{...}` override block rewritten by `ovBody000`,
and the line is rejoined with commas.  Fuel-indexed through the tag scaler:
`none` for every fuel models the non-terminating `\t` loop. -/
def processDialogue000F (rx ry : Rat) (fuel : Nat) (ln : List Char) : Option (List Char) :=
  if isDialogue000 ln then
    let parts := splitNPT ln ',' 10
    if parts.length < 10 then some ln
    else
      let tf := parts.getD 9 []
      match replAllOGo ovTry (ovBody000 rx ry fuel) tf.length tf with
      | none => none
      | some tf' => some (List.intercalate [','] (parts.set 9 tf'))
  else some ln

/-- First index of a field name in a `Format:` field list (part_000
processASS lines 362-371: the scan keeps the first occurrence). -/
def idxOfField (fields : List (List Char)) (nm : List Char) : Option Nat :=
  fields.findIdx? (· = nm)

/-- First index of a substring (Go `strings.Index`), `none` when absent. -/
def idxOfSubGo (pat : List Char) : Nat → Nat → List Char → Option Nat
  | 0, _, _ => none
  | _ + 1, i, [] => if pat.isEmpty ∧ i = 0 then some 0 else none
  | f + 1, i, c :: cs =>
      if goHasPre pat (c :: cs) then some i else idxOfSubGo pat f (i + 1) cs

/-- Go `strings.Index` (first occurrence), `none` for Go's `-1`. -/
def idxOfSub (s pat : List Char) : Option Nat :=
  if pat.isEmpty then some 0 else idxOfSubGo pat (s.length + 1) 0 s

/-- part_000 `processASS` treatment of one `Style:` line (lines 374-404),
given the section's format fields (lowercased, as collected in lines
339-346, or the hardcoded default list): split the content after the
`Style:` prefix into `len(formatFields)` parts, pad with empty fields,
overwrite the `fontname` field with the target font, and replace a
nonempty, parseable `fontsize` field by `scaleFloatFormat(value * ratioY)`;
the line is rebuilt as `Style: ` ++ the joined fields. -/
def processStyleLine000 (fmtFields : List (List Char)) (ratioY : Rat) (ln : List Char) : List Char :=
  if goHasPre (("style:").data) (goLower (goTrim ln)) then
    let pLen := (idxOfSub (goLower ln) (("style:").data)).getD 0 + 6
    let content := goTrim (ln.drop pLen)
    let parts0 := splitNPT content ',' fmtFields.length
    let parts := parts0 ++ List.replicate (fmtFields.length - parts0.length) []
    let parts1 :=
      match idxOfField fmtFields (("fontname").data) with
      | some i => parts.set i targetFontName
      | none => parts
    let parts2 :=
      match idxOfField fmtFields (("fontsize").data) with
      | some i =>
          let oldFs := goTrim (parts1.getD i [])
          if oldFs.isEmpty then parts1
          else
            match parseFloatGo oldFs with
            | some fv => parts1.set i (scaleFloatFormat (fv * ratioY))
            | none => parts1
      | none => parts1
    ("Style: ").data ++ List.intercalate [','] parts2
  else ln

/-- One-line reading of part_000's multiline regexp
`(?mi)^\s*PlayRes<axis>\s*:\s*(\d+)\s*$` (lines 276-277): a document match
exists exactly when some line of the `\n`-split document has this shape,
and the first such line carries the first capture.  `key` is the lowercase
`playresx` or `playresy`; the returned value is the digit capture. -/
def isPlayResDecl (key : List Char) (l : List Char) : Option (List Char) :=
  let l1 := l.dropWhile goSpace
  if goHasPre key (goLower l1) then
    match (l1.drop key.length).dropWhile goSpace with
    | ':' :: l4 =>
        let l5 := l4.dropWhile goSpace
        let ds := l5.takeWhile goDigit
        if !ds.isEmpty && (l5.dropWhile goDigit).all goSpace then some ds else none
    | _ => none
  else none

/-- First capture over the lines of the document (`FindStringSubmatch`). -/
def firstDecl (key : List Char) : List (List Char) → Option (List Char)
  | [] => none
  | l :: ls =>
      match isPlayResDecl key l with
      | some ds => some ds
      | none => firstDecl key ls

/-- A line is entirely whitespace. -/
def allWsL (l : List Char) : Bool := l.all goSpace

/-- A line matched by part_000's `(?m)^\[Script Info\]\s*$` (line 295): the
literal header followed only by whitespace. -/
def isScriptInfoHeader (l : List Char) : Bool :=
  goHasPre (("[Script Info]").data) l && (l.drop 13).all goSpace

/-- Continuation of `insertAH`: having found the header line, the greedy
`\s*$` of the Go regexp extends the match end through any following
all-whitespace lines, so `text[:loc[1]] ++ "\nNEW\n" ++ text[loc[1]:]`
places the new line (followed by an empty line) after the last line of
that whitespace run. -/
def insertRun (hd : List Char) (ls : List (List Char)) (nl : List Char) : List (List Char) :=
  match ls with
  | [] => [hd, nl, []]
  | m :: ms => if allWsL m then hd :: insertRun m ms nl else hd :: nl :: [] :: m :: ms

/-- Insertion of part_000 lines 296-298 in the line view: find the first
`[Script Info]` header line and splice the new line after it; `none` when
the document has no header line. -/
def insertAH : List (List Char) → List Char → Option (List (List Char))
  | [], _ => none
  | l :: ls, nl =>
      if isScriptInfoHeader l then some (insertRun l ls nl)
      else
        match insertAH ls nl with
        | some r => some (l :: r)
        | none => none

/-- part_000 `processASS`, stage 1 (lines 276-313), in the line view of the
newline-normalized document: read `PlayResX`/`PlayResY` (defaults 1280 and
720), compute the ratios against 1920x1080, and then for each axis either
rewrite every declaration line to the target value or insert a new
declaration after the `[Script Info]` header — prepending a synthetic
header when there is none.  The stage is a total function: it has no
failure case. -/
def resolver000 (lines : List (List Char)) : Rat × Rat × List (List Char) :=
  let keyX := ("playresx").data
  let keyY := ("playresy").data
  let origX : Rat := match firstDecl keyX lines with
                     | some ds => parseFloatSafe ds 1280
                     | none => 1280
  let origY : Rat := match firstDecl keyY lines with
                     | some ds => parseFloatSafe ds 720
                     | none => 720
  let ratioX := 1920 / origX
  let ratioY := 1080 / origY
  let t1 :=
    if lines.any (fun l => (isPlayResDecl keyX l).isSome) then
      lines.map (fun l => if (isPlayResDecl keyX l).isSome then ("PlayResX: 1920").data else l)
    else
      match insertAH lines (("PlayResX: 1920").data) with
      | some r => r
      | none => ("[Script Info]").data :: ("PlayResX: 1920").data :: lines
  let t2 :=
    if t1.any (fun l => (isPlayResDecl keyY l).isSome) then
      t1.map (fun l => if (isPlayResDecl keyY l).isSome then ("PlayResY: 1080").data else l)
    else
      match insertAH t1 (("PlayResY: 1080").data) with
      | some r => r
      | none => ("[Script Info]").data :: ("PlayResY: 1080").data :: t1
  (ratioX, ratioY, t2)

/-- Go `strings.SplitN(s, sep, 2)` for a one-character separator. -/
def splitN2 (sep : Char) (s : List Char) : List (List Char) :=
  match s.dropWhile (· ≠ sep) with
  | _ :: after => [s.takeWhile (· ≠ sep), after]
  | [] => [s]

/-- part_001 `ProcessASS` per-line PlayRes reading (lines 41-66): on a
trimmed line whose lowercase form starts with the key, split at the first
`:` (or, failing that, `=`) and parse the remainder; `none` keeps the
previous value. -/
def pr001 (key : List Char) (l : List Char) : Option Rat :=
  let t := goTrim l
  if goHasPre key (goLower t) then
    let parts := splitN2 ':' t
    let parts := if parts.length < 2 then splitN2 '=' t else parts
    if parts.length ≥ 2 then parseFloatGo (goTrim (parts.getD 1 [])) else none
  else none

/-- part_001 `ProcessASS` resolution stage (lines 39-75): scan all lines
(the last parseable declaration wins), and abort — the Go code's
`return ""`, modelled by `none` — when either source dimension is still
zero (lines 67-69); otherwise the scale factors against 1920x1080. -/
def resolver001 (lines : List (List Char)) : Option (Rat × Rat) :=
  let sw := lines.foldl (fun acc l => match pr001 (("playresx").data) l with
                                      | some v => v
                                      | none => acc) 0
  let sh := lines.foldl (fun acc l => match pr001 (("playresy").data) l with
                                      | some v => v
                                      | none => acc) 0
  if sw = 0 || sh = 0 then none else some (1920 / sw, 1080 / sh)

/-- Go `path/filepath.Ext`: the suffix starting at the final dot in the
final slash-separated element, empty when there is none. -/
def extRev : List Char → List Char → List Char
  | _, [] => []
  | acc, c :: cs =>
      if c = '.' then '.' :: acc
      else if c = '/' then []
      else extRev (c :: acc) cs

/-- Go `path/filepath.Ext` (Unix separators). -/
def extGo (p : List Char) : List Char := extRev [] p.reverse

/-- Go `strings.TrimSuffix`. -/
def goTrimSuffix (s suf : List Char) : List Char :=
  if suf.isSuffixOf s then s.take (s.length - suf.length) else s

/-- The n-th output-name candidate of part_000 `generateOutputName`
(lines 1523-1535): first `<base>_Limenime.ass`, then
`<base>_Limenime(n).ass` for n = 1, 2, .... -/
def candName (base : List Char) (n : Nat) : List Char :=
  if n = 0 then base ++ ("_Limenime.ass").data
  else base ++ ("_Limenime(").data ++ natToStr n ++ (").ass").data

/-- part_000 `generateOutputName`: `base` is the input with its extension
trimmed; the loop stats each candidate in order and stops at the first one
that does not exist.  The filesystem is abstracted as the predicate `ex`
(`true` = `os.Stat` does not report `IsNotExist`); the loop terminates
exactly when some candidate is free, which the hypothesis supplies, and
then returns the first free candidate. -/
def generateOutputName (ex : List Char → Bool) (input : List Char)
    (h : ∃ n, ex (candName (goTrimSuffix input (extGo input)) n) = false) : List Char :=
  candName (goTrimSuffix input (extGo input)) (Nat.find h)

/-- Character class `[-\d.]` of resampleASSv2's tag regexes. -/
def numClassV2 (c : Char) : Bool := c = '-' || goDigit c || c = '.'

/-- resampleASSv2 `rePos` = `\pos\(([-\d.]+),\s*([-\d.]+)\)` with its
replacement (lines 307-318): both captures are parsed (`x, _ :=
strconv.ParseFloat` — a parse error silently yields 0), shifted by the
margins (all fixed to 0 in the source, line 68) and scaled, and the tag is
reprinted with `%.3f` coordinates. -/
def tryPosV2 (rx ry : Rat) (s : List Char) : Option (List Char × List Char) := do
  let r1 ← dropLit (("\\pos(").data) s
  let a := r1.takeWhile numClassV2
  if a.isEmpty then none
  else
    let r2 := r1.drop a.length
    let r3 ← dropLit [','] r2
    let r4 := r3.dropWhile goSpace
    let b := r4.takeWhile numClassV2
    if b.isEmpty then none
    else
      let r5 ← dropLit [')'] (r4.drop b.length)
      let x := ((parseFloatGo a).getD 0 + 0) * rx
      let y := ((parseFloatGo b).getD 0 + 0) * ry
      some ((("\\pos(").data) ++ fmtFixed 3 x ++ ',' :: fmtFixed 3 y ++ [')'], r5)

/-- resampleASSv2 `\pos` rewriting over a whole override content. -/
def v2PosPass (rx ry : Rat) (s : List Char) : List Char := replAll (tryPosV2 rx ry) s

/-- Go `strconv.Atoi` as used by resampleASSv2 line 275-277: the error is
discarded, so a syntax error leaves the zero value. -/
def goAtoi (s : List Char) : Int :=
  match s with
  | '-' :: ds => if !ds.isEmpty && ds.all goDigit then -(parseNatAcc 0 ds : Int) else 0
  | '+' :: ds => if !ds.isEmpty && ds.all goDigit then (parseNatAcc 0 ds : Int) else 0
  | ds => if !ds.isEmpty && ds.all goDigit then (parseNatAcc 0 ds : Int) else 0

/-- resampleASSv2 dialogue margin rewrite for one field (lines 275-284):
`strconv.Itoa(int((float64(m)+float64(margin))*r + 0.5))` with the global
margins fixed to 0 (line 68); `int(..)` truncates toward zero. -/
def v2Margin (r : Rat) (field : List Char) : List Char :=
  intToStr (goTruncInt (((goAtoi (goTrim field) : Rat) + 0) * r + 1/2))

/-- resampleASSv2 rewrite of the three dialogue margin fields
(MarginL, MarginR by rx; MarginV by ry). -/
def v2DialogueMargins (rx ry : Rat) (p5 p6 p7 : List Char) :
    List Char × List Char × List Char :=
  (v2Margin rx p5, v2Margin rx p6, v2Margin ry p7)

/-! ### Arithmetic and string lemmas -/

/-- A decimal digit below ten is parsed back from its character. -/
theorem digitVal_digitChar {n : Nat} (h : n < 10) : digitVal (digitChar n) = n := by
  interval_cases n <;> rfl

/-- The character of a decimal digit is in the digit class. -/
theorem goDigit_digitChar {n : Nat} (h : n < 10) : goDigit (digitChar n) = true := by
  interval_cases n <;> rfl

/-- Parsing distributes over appending digit strings. -/
theorem parseNatAcc_append (a : Nat) (l1 l2 : List Char) :
    parseNatAcc a (l1 ++ l2) = parseNatAcc (parseNatAcc a l1) l2 := by
  induction l1 generalizing a with
  | nil => rfl
  | cons c cs ih => simp [parseNatAcc, ih]

/-- The decimal rendering of `n` is a nonempty digit string that parses back
to `n` (for any sufficient fuel). -/
theorem natToStrAux_spec {fuel n : Nat} (h : n < fuel) :
    natToStrAux fuel n ≠ [] ∧ (natToStrAux fuel n).all goDigit = true ∧
      parseNatAcc 0 (natToStrAux fuel n) = n := by
  induction fuel generalizing n with
  | zero => omega
  | succ f ih =>
    by_cases h10 : n < 10
    · simp [natToStrAux, h10, parseNatAcc, digitVal_digitChar h10, goDigit_digitChar h10]
    · have hdiv : n / 10 < n := Nat.div_lt_self (by omega) (by omega)
      have hf : n / 10 < f := by omega
      obtain ⟨hne, hall, hval⟩ := ih hf
      refine ⟨?_, ?_, ?_⟩
      · simp [natToStrAux, h10]
      · simp [natToStrAux, h10, List.all_append, hall,
              goDigit_digitChar (Nat.mod_lt n (by omega))]
      · rw [natToStrAux, if_neg h10, parseNatAcc_append, hval, parseNatAcc,
            digitVal_digitChar (Nat.mod_lt n (by omega)), parseNatAcc]
        omega

/-- `natToStr` is a nonempty digit string parsing back to its value. -/
theorem natToStr_spec (n : Nat) :
    natToStr n ≠ [] ∧ (natToStr n).all goDigit = true ∧ parseNatAcc 0 (natToStr n) = n :=
  natToStrAux_spec (Nat.lt_succ_self n)

/-- `takeWhile` keeps a list all of whose members satisfy the predicate. -/
theorem takeWhile_of_all {p : Char → Bool} {l : List Char} (h : l.all p = true) :
    l.takeWhile p = l := by
  induction l with
  | nil => rfl
  | cons c cs ih =>
    simp only [List.all_cons, Bool.and_eq_true] at h
    simp [List.takeWhile, h.1, ih h.2]

/-- `dropWhile` drops a list all of whose members satisfy the predicate. -/
theorem dropWhile_of_all {p : Char → Bool} {l : List Char} (h : l.all p = true) :
    l.dropWhile p = [] := by
  induction l with
  | nil => rfl
  | cons c cs ih =>
    simp only [List.all_cons, Bool.and_eq_true] at h
    simp [List.dropWhile, h.1, ih h.2]

/-- Go's float parser accepts the decimal rendering of a natural number. -/
theorem parseUnsigned_natToStr (n : Nat) : parseUnsigned (natToStr n) = some (n : Rat) := by
  obtain ⟨hne, hall, hval⟩ := natToStr_spec n
  unfold parseUnsigned
  rw [takeWhile_of_all hall, dropWhile_of_all hall]
  simp [List.isEmpty_iff, hne, hval]

/-- A digit character is not a sign character. -/
theorem goDigit_ne_sign {c : Char} (h : goDigit c = true) : c ≠ '+' ∧ c ≠ '-' := by
  constructor <;> rintro rfl <;> simp [goDigit] at h

/-- Go's float parser accepts `strconv.Itoa` of a natural number. -/
theorem parseFloatGo_natToStr (n : Nat) : parseFloatGo (natToStr n) = some (n : Rat) := by
  obtain ⟨hne, hall, -⟩ := natToStr_spec n
  obtain ⟨c, cs, hcs⟩ := List.exists_cons_of_ne_nil hne
  have hc : goDigit c = true := by
    have hall2 := hall
    rw [hcs] at hall2
    simp only [List.all_cons, Bool.and_eq_true] at hall2
    exact hall2.1
  obtain ⟨h1, h2⟩ := goDigit_ne_sign hc
  rw [hcs, parseFloatGo, if_neg h1, if_neg h2, ← hcs, parseUnsigned_natToStr]

/-- Go's float parser inverts Go's integer formatting exactly. -/
theorem parseFloatGo_intToStr (i : Int) : parseFloatGo (intToStr i) = some (i : Rat) := by
  by_cases h : i < 0
  · rw [intToStr, if_pos h]
    have h2 : ((i.natAbs : Nat) : Rat) = -(i : Rat) := by
      have h3 : ((i.natAbs : Nat) : Int) = -i := by omega
      rw [← Int.cast_natCast (R := Rat), h3, Int.cast_neg]
    simp [parseFloatGo, parseUnsigned_natToStr, h2]
  · rw [intToStr, if_neg h, parseFloatGo_natToStr]
    congr 1
    have h0 : (0 : Int) ≤ i := not_lt.mp h
    exact_mod_cast congrArg (fun z : Int => (z : Rat)) (Int.toNat_of_nonneg h0)

/-- part_000's number formatter prints an integer value as the plain
integer literal. -/
theorem scaleFloatFormat_intCast (i : Int) : scaleFloatFormat (i : Rat) = intToStr i := by
  rw [scaleFloatFormat, if_pos (Rat.den_intCast i), Rat.num_intCast]

/-- At scale 1 part_000's number rewriting maps every canonical integer
literal to itself. -/
theorem scaleNumberString_int_one (i : Int) :
    scaleNumberString (intToStr i) 1 = intToStr i := by
  unfold scaleNumberString
  rw [parseFloatGo_intToStr]
  simp only [mul_one]
  exact scaleFloatFormat_intCast i

/-! ### Lemmas about the comma splitters -/

/-- Length of part_000's `splitNPreserveTrailing` scan: one more part than
the number of separators consumed, which is capped by `n - count`. -/
theorem snptGo_length (sep : Char) (n : Nat) (s : List Char) :
    ∀ (cur : List Char) (count : Nat),
      (snptGo sep n s cur count).length = 1 + min (countCh sep s) (n - count) := by
  induction s with
  | nil => intro cur count; simp [snptGo, countCh]
  | cons c cs ih =>
    intro cur count
    by_cases hc : c = sep
    · by_cases hcount : count < n
      · rw [snptGo, if_pos (by simp [hc, hcount])]
        simp only [List.length_cons, ih]
        have he : countCh sep (c :: cs) = countCh sep cs + 1 := by
          simp [countCh, List.countP_cons, hc]
        rw [he]
        omega
      · rw [snptGo, if_neg (by simp [hcount])]
        rw [ih]
        have he : countCh sep (c :: cs) = countCh sep cs + 1 := by
          simp [countCh, List.countP_cons, hc]
        rw [he]
        omega
    · rw [snptGo, if_neg (by simp [hc])]
      rw [ih]
      have he : countCh sep (c :: cs) = countCh sep cs := by
        simp [countCh, List.countP_cons, hc]
      rw [he]

/-- A dialogue line with fewer than nine commas splits into fewer than the
ten expected fields. -/
theorem splitNPT_length_of_few (s : List Char) (h : countCh ',' s < 9) :
    (splitNPT s ',' 10).length < 10 := by
  rw [splitNPT, if_neg (by omega)]
  rw [snptGo_length]
  omega

/-- `dropWhile` is the identity when the head fails the predicate. -/
theorem dropWhile_of_head {p : Char → Bool} {c : Char} {cs : List Char}
    (h : p c = false) : (c :: cs).dropWhile p = c :: cs := by
  simp [List.dropWhile, h]

/-- `dropWhile` is the identity on lists without predicate-satisfying
members. -/
theorem dropWhile_of_not_mem {p : Char → Bool} {l : List Char}
    (h : ∀ c ∈ l, p c = false) : l.dropWhile p = l := by
  cases l with
  | nil => rfl
  | cons c cs => exact dropWhile_of_head (h c (by simp))

/-- `TrimSpace` is the identity on strings without whitespace. -/
theorem goTrim_of_not_space {l : List Char} (h : ∀ c ∈ l, goSpace c = false) :
    goTrim l = l := by
  unfold goTrim
  rw [dropWhile_of_not_mem h, dropWhile_of_not_mem (fun c hc => h c (List.mem_reverse.mp hc)),
      List.reverse_reverse]

/-- A digit character is not whitespace. -/
theorem goDigit_not_space {c : Char} (h : goDigit c = true) : goSpace c = false := by
  simp only [goDigit, Bool.and_eq_true, decide_eq_true_eq] at h
  simp only [goSpace]
  simp only [Bool.or_eq_false_iff, decide_eq_false_iff_not]
  omega

/-- A digit character is not a comma. -/
theorem goDigit_ne_comma {c : Char} (h : goDigit c = true) : c ≠ ',' := by
  rintro rfl
  simp [goDigit] at h

/-- `dropWhile` is idempotent. -/
theorem dropWhile_dropWhile (p : Char → Bool) (l : List Char) :
    (l.dropWhile p).dropWhile p = l.dropWhile p := by
  induction l with
  | nil => rfl
  | cons c cs ih =>
    by_cases h : p c
    · simp [List.dropWhile, h, ih]
    · simp only [Bool.not_eq_true] at h
      simp [List.dropWhile, h]

/-- `TrimSpace` is idempotent. -/
theorem goTrim_idem (l : List Char) : goTrim (goTrim l) = goTrim l := by
  have hB : goTrim l = ((l.dropWhile goSpace).reverse.dropWhile goSpace).reverse := rfl
  have h1 : (goTrim l).dropWhile goSpace = goTrim l := by
    rcases hcase : (goTrim l) with _ | ⟨c, cs⟩
    · rfl
    · apply dropWhile_of_head
      have hpre : goTrim l <+: l.dropWhile goSpace := by
        rw [hB, ← List.reverse_suffix]
        simp only [List.reverse_reverse]
        exact List.dropWhile_suffix goSpace
      rcases hpre with ⟨t, ht⟩
      rw [hcase] at ht
      have hd : (l.dropWhile goSpace).head? = some c := by
        rw [← ht]
        rfl
      have hhead : ∀ (m : List Char) (d : Char), (m.dropWhile goSpace).head? = some d →
          goSpace d = false := by
        intro m
        induction m with
        | nil => intro d hd2; simp [List.dropWhile] at hd2
        | cons x xs ih =>
          intro d hd2
          by_cases hx : goSpace x
          · rw [List.dropWhile_cons_of_pos hx] at hd2
            exact ih d hd2
          · rw [List.dropWhile_cons_of_neg hx] at hd2
            simp only [List.head?_cons, Option.some.injEq] at hd2
            subst hd2
            simpa using hx
      exact hhead l c hd
  rw [show goTrim (goTrim l) =
        (((goTrim l).dropWhile goSpace).reverse.dropWhile goSpace).reverse from rfl]
  rw [h1, hB]
  rw [List.reverse_reverse, dropWhile_dropWhile]

/-- Once `n - 1` separators have been consumed, part_001's comma scan puts
everything remaining into one final trimmed part. -/
theorem sbcGo_stop (n : Nat) (s : List Char) :
    ∀ (cur : List Char) (count : Nat), n - 1 ≤ count →
      sbcGo n s cur count = [goTrim (cur ++ s)] := by
  induction s with
  | nil => intro cur count _; simp [sbcGo]
  | cons c cs ih =>
    intro cur count h
    rw [sbcGo, if_neg (by simp; omega)]
    rw [ih (cur ++ [c]) count h]
    simp

/-- part_001's comma scan with `n = 2` cuts a comma-free lead from the rest
at the first comma. -/
theorem sbcGo_split (rest lead : List Char) (hl : ∀ c ∈ lead, c ≠ ',') :
    ∀ cur, sbcGo 2 (lead ++ ',' :: rest) cur 0 = [goTrim (cur ++ lead), goTrim rest] := by
  induction lead with
  | nil =>
    intro cur
    rw [List.nil_append, sbcGo, if_pos (by simp)]
    rw [sbcGo_stop 2 rest [] 1 (by omega)]
    simp
  | cons c cl ih =>
    intro cur
    rw [List.cons_append, sbcGo, if_neg (by simp [hl c (by simp)])]
    rw [ih (fun x hx => hl x (by simp [hx])) (cur ++ [c])]
    simp

/-- part_001 `splitByCommasN` with `n = 2` on a comma-free lead followed by
a comma: the trimmed lead and the trimmed remainder. -/
theorem splitByCommasN_split (lead rest : List Char) (hl : ∀ c ∈ lead, c ≠ ',') :
    splitByCommasN (lead ++ ',' :: rest) 2 = [goTrim lead, goTrim rest] := by
  rw [splitByCommasN, if_neg (by omega)]
  rw [sbcGo_split rest lead hl []]
  simp

/-! ### Lemmas about the nested-transform loop -/

/-- The full tag scaler is the identity (and terminates) on the inert
string `\k`, for any fuel at least 2. -/
theorem engF_inert (f : Nat) :
    engF 2 2 (f + 2) true ['\\', 'k'] = some ['\\', 'k'] := by
  rw [engF]
  rw [show scaleTagsPre 2 2 ['\\', 'k'] = ['\\', 'k'] by decide]
  rw [engF]
  rw [if_neg (by decide)]

/-- The `false` mode of `engF` is one guarded iteration of the `\t` loop
with the loop body `tBodyF`. -/
theorem tBodyF_eq (rx ry : Rat) (f : Nat) (s : List Char) :
    engF rx ry (f + 1) false s =
      (if tMatch s then
        match replAllOGo tTry (tBodyF rx ry f) s.length s with
        | none => none
        | some s' => engF rx ry f false s'
      else some s) := rfl

/-- The loop body maps the capture `\k` back to the whole tag `\t(\k)`. -/
theorem tBody_inert (f : Nat) :
    tBodyF 2 2 (f + 2) ['\\', 'k'] = some ['\\', 't', '(', '\\', 'k', ')'] := by
  have h0 : (['\\', 'k'] : List Char).findIdx? (· = '\\') = some 0 := by decide
  unfold tBodyF
  rw [h0]
  simp only [List.drop_zero, List.take_zero, engF_inert, Option.map_some']
  rfl

/-- One whole `ReplaceAllStringFunc` pass of the `\t` loop maps `\t(\k)` to
itself: the loop makes no progress on this input. -/
theorem tReplace_inert (f : Nat) :
    replAllOGo tTry (tBodyF 2 2 (f + 2)) 6 ['\\', 't', '(', '\\', 'k', ')']
      = some ['\\', 't', '(', '\\', 'k', ')'] := by
  have ht : tTry ['\\', 't', '(', '\\', 'k', ')'] = some (['\\', 'k'], ([] : List Char)) := by
    decide
  rw [replAllOGo]
  rw [ht]
  simp only [tBody_inert, Option.bind_eq_bind, Option.some_bind]
  rw [show replAllOGo tTry (tBodyF 2 2 (f + 2)) 5 [] = some [] from rfl]
  simp

/-- The `\t` loop never leaves its guard on `\t(\k)`: every fuel bound is
exhausted. -/
theorem engF_loop_none : ∀ f, engF 2 2 f false ['\\', 't', '(', '\\', 'k', ')'] = none := by
  intro f
  induction f with
  | zero => rfl
  | succ g ih =>
    rcases g with _ | _ | h
    · decide
    · decide
    · rw [tBodyF_eq 2 2 (h + 2), if_pos (by decide)]
      rw [show (['\\', 't', '(', '\\', 'k', ')'] : List Char).length = 6 from rfl]
      rw [tReplace_inert h]
      exact ih

/-- part_000 `scaleTags` has no value on the override content `\t(\k)`:
the trailing loop never terminates. -/
theorem scaleTagsF_t_none (fuel : Nat) :
    scaleTagsF 2 2 fuel ['\\', 't', '(', '\\', 'k', ')'] = none := by
  cases fuel with
  | zero => rfl
  | succ f =>
    show engF 2 2 (f + 1) true ['\\', 't', '(', '\\', 'k', ')'] = none
    rw [engF]
    rw [show scaleTagsPre 2 2 ['\\', 't', '(', '\\', 'k', ')']
          = ['\\', 't', '(', '\\', 'k', ')'] by decide]
    exact engF_loop_none f

/-- The override-block rewriting of part_000 `processASS` has no value on
the block `{\t(\k)}`. -/
theorem ovReplace_none (fuel : Nat) :
    replAllOGo ovTry (ovBody000 2 2 fuel) 8
      ['\x7b', '\\', 't', '(', '\\', 'k', ')', '\x7d'] = none := by
  rw [replAllOGo]
  rw [show ovTry ['\x7b', '\\', 't', '(', '\\', 'k', ')', '\x7d']
        = some (['\\', 't', '(', '\\', 'k', ')'], ([] : List Char)) by decide]
  have hb : ovBody000 2 2 fuel ['\\', 't', '(', '\\', 'k', ')'] = none := by
    rw [ovBody000]
    rw [if_neg (by decide)]
    rw [scaleTagsF_t_none fuel]
    rfl
  simp [hb]

/-- part_000's whole dialogue-line processing has no value on a dialogue
line whose text field carries `{\t(\k)}`. -/
theorem dialogue_t_none (fuel : Nat) :
    processDialogue000F 2 2 fuel
      (("Dialogue: 0,a,b,c,d,e,f,g,h,\x7b\\t(\\k)\x7d").data) = none := by
  unfold processDialogue000F
  rw [if_pos (by decide), if_neg (by decide)]
  rw [show (splitNPT (("Dialogue: 0,a,b,c,d,e,f,g,h,\x7b\\t(\\k)\x7d").data) ',' 10).getD 9 []
        = ['\x7b', '\\', 't', '(', '\\', 'k', ')', '\x7d'] by decide]
  simp only [List.length_cons, List.length_nil, Nat.reduceAdd, ovReplace_none fuel]

/-! ### Lemmas about the resolution resolver -/

/-- No line declares the resolution, so the document-wide first capture is
empty. -/
theorem firstDecl_none {key : List Char} {ls : List (List Char)}
    (h : ∀ l ∈ ls, isPlayResDecl key l = none) : firstDecl key ls = none := by
  induction ls with
  | nil => rfl
  | cons l ls ih =>
    rw [firstDecl, h l (by simp)]
    exact ih (fun x hx => h x (by simp [hx]))

/-- No line declares the resolution, so `MatchString` over the document is
false. -/
theorem any_decl_false {key : List Char} {ls : List (List Char)}
    (h : ∀ l ∈ ls, isPlayResDecl key l = none) :
    ls.any (fun l => (isPlayResDecl key l).isSome) = false := by
  rw [List.any_eq_false]
  intro l hl
  simp [h l hl]

/-- Without a `[Script Info]` header line the insertion scan fails over. -/
theorem insertAH_none {ls : List (List Char)} {nl : List Char}
    (h : ∀ l ∈ ls, isScriptInfoHeader l = false) : insertAH ls nl = none := by
  induction ls with
  | nil => rfl
  | cons l ls ih =>
    rw [insertAH, if_neg (by simp [h l (by simp)])]
    rw [ih (fun x hx => h x (by simp [hx]))]

/-- part_000's resolver on a document with a `[Script Info]` header, a
following non-blank line and no resolution declarations: the ratios default
to 1920/1280 and 1080/720 and both declarations are inserted right after
the header (each insertion also leaves one blank line). -/
theorem resolver000_inserts (r : List Char) (rs : List (List Char))
    (hx : ∀ l ∈ (("[Script Info]").data) :: r :: rs,
            isPlayResDecl (("playresx").data) l = none)
    (hy : ∀ l ∈ (("[Script Info]").data) :: r :: rs,
            isPlayResDecl (("playresy").data) l = none)
    (hr : allWsL r = false) :
    resolver000 ((("[Script Info]").data) :: r :: rs) =
      (3/2, 3/2,
        (("[Script Info]").data) :: (("PlayResY: 1080").data) :: [] ::
          (("PlayResX: 1920").data) :: [] :: r :: rs) := by
  have ht1 : insertAH ((("[Script Info]").data) :: r :: rs) ((("PlayResX: 1920").data))
      = some ((("[Script Info]").data) :: (("PlayResX: 1920").data) :: [] :: r :: rs) := by
    rw [insertAH, if_pos (by decide)]
    rw [insertRun, if_neg (by simp [hr])]
  have hy2 : ∀ l ∈ (("[Script Info]").data) :: (("PlayResX: 1920").data) :: [] :: r :: rs,
      isPlayResDecl (("playresy").data) l = none := by
    intro m hm
    simp only [List.mem_cons] at hm
    rcases hm with rfl | rfl | rfl | hm4 | hm5
    · decide
    · decide
    · decide
    · rw [hm4]
      exact hy r (by simp)
    · exact hy m (by simp [hm5])
  have ht2 : insertAH ((("[Script Info]").data) :: (("PlayResX: 1920").data) :: [] :: r :: rs)
      ((("PlayResY: 1080").data))
      = some ((("[Script Info]").data) :: (("PlayResY: 1080").data) :: [] ::
          (("PlayResX: 1920").data) :: [] :: r :: rs) := by
    rw [insertAH, if_pos (by decide)]
    rw [insertRun, if_neg (by decide)]
  unfold resolver000
  simp only [firstDecl_none hx, firstDecl_none hy, any_decl_false hx, any_decl_false hy2,
    ht1, ht2, Bool.false_eq_true, if_false]
  simp only [Prod.mk.injEq]
  refine ⟨by decide, by decide, trivial⟩

/-- part_000's resolver on a document with no `[Script Info]` header and no
resolution declarations: the header is synthesized at document start and
both declarations follow it; the ratios use the 1280x720 defaults. -/
theorem resolver000_synth (ls : List (List Char))
    (hx : ∀ l ∈ ls, isPlayResDecl (("playresx").data) l = none)
    (hy : ∀ l ∈ ls, isPlayResDecl (("playresy").data) l = none)
    (hh : ∀ l ∈ ls, isScriptInfoHeader l = false) :
    resolver000 ls =
      (3/2, 3/2,
        (("[Script Info]").data) :: (("PlayResY: 1080").data) :: [] ::
          (("PlayResX: 1920").data) :: ls) := by
  have hy2 : ∀ l ∈ (("[Script Info]").data) :: (("PlayResX: 1920").data) :: ls,
      isPlayResDecl (("playresy").data) l = none := by
    intro m hm
    simp only [List.mem_cons] at hm
    rcases hm with rfl | rfl | hm3
    · decide
    · decide
    · exact hy m (by simp [hm3])
  have ht2 : insertAH ((("[Script Info]").data) :: (("PlayResX: 1920").data) :: ls)
      ((("PlayResY: 1080").data))
      = some ((("[Script Info]").data) :: (("PlayResY: 1080").data) :: [] ::
          (("PlayResX: 1920").data) :: ls) := by
    rw [insertAH, if_pos (by decide)]
    rw [insertRun, if_neg (by decide)]
  unfold resolver000
  simp only [firstDecl_none hx, firstDecl_none hy, any_decl_false hx, any_decl_false hy2,
    insertAH_none hh, ht2, Bool.false_eq_true, if_false]
  simp only [Prod.mk.injEq]
  refine ⟨by decide, by decide, trivial⟩

/-- The always-false filesystem used by the output-name witness. -/
def exEmpty : List Char → Bool := fun _ => false

/-! ### The claims -/

/-- C1: the claim says part_000's inline tag-scaler terminates on every
input with a `\t(...)` tag because the unwrapping loop strictly decreases a
measure.  The code contradicts this: on the override content `\t(\k)` (and
on the dialogue line carrying it inside a brace block) the loop
`for reT.MatchString(s)` never exits — every replacement pass rebuilds a
string still matching `reT` — so the embedding returns no value for any
fuel bound. -/
theorem c1_transform_unwrap_diverges :
    (∀ fuel, scaleTagsF 2 2 fuel ['\\', 't', '(', '\\', 'k', ')'] = none) ∧
    (∀ fuel, processDialogue000F 2 2 fuel
        (("Dialogue: 0,a,b,c,d,e,f,g,h,\x7b\\t(\\k)\x7d").data) = none) :=
  ⟨scaleTagsF_t_none, dialogue_t_none⟩

/-- C2 counterexample: part_000's style rewriting (processASS lines
392-402) does not round the scaled fontsize to an integer — fontsize 25 at
ratioY = 3/2 is emitted as `37.5`, not as the claimed round-half-up `38`. -/
theorem c2_fontsize_not_rounded :
    processStyleLine000 [(("name").data), (("fontname").data), (("fontsize").data)] (3/2)
        (("Style: Def,Arial,25").data)
      = (("Style: Def,Basic Comical NC,37.5").data) ∧
    (("Style: Def,Basic Comical NC,37.5").data) ≠ (("Style: Def,Basic Comical NC,38").data) :=
  ⟨by decide, by decide⟩

/-- C2 amended: part_001's style fontsize rewrite does round half-up
(`intRound(v * RY)` equals `⌊v·RY + 1/2⌋` for every integer fontsize and
every ratio), 48 at ratioY = 3/2 becomes exactly 72 there; part_000 instead
emits `scaleFloatFormat(v * ratioY)` without rounding, which also gives 72
for the exact case 48 x 3/2. -/
theorem c2_fontsize_amended :
    (∀ (n : Nat) (RY : Rat),
        fontsize001 RY (natToStr n) = intToStr ((n : Rat) * RY + 1/2).floor) ∧
    fontsize001 (3/2) (("48").data) = (("72").data) ∧
    fontsize001 (3/2) (("25").data) = (("38").data) ∧
    processStyleLine000 [(("name").data), (("fontname").data), (("fontsize").data)] (3/2)
        (("Style: Def,Arial,48").data)
      = (("Style: Def,Basic Comical NC,72").data) := by
  refine ⟨?_, by decide, by decide, by decide⟩
  intro n RY
  unfold fontsize001
  simp only [parseFloatGo_natToStr]
  rfl

/-- C3 counterexample: part_000's dialogue processing (processASS lines
471-503) leaves the margin fields untouched — the spec's example line comes
back unchanged instead of carrying margins 15, 30, 8. -/
theorem c3_margins_unchanged_in_part000 :
    processDialogue000F (3/2) (3/2) 5
        (("Dialogue: 0,0:00:00.00,0:00:05.00,Default,,10,20,5,,Hello").data)
      = some ((("Dialogue: 0,0:00:00.00,0:00:05.00,Default,,10,20,5,,Hello").data)) ∧
    some ((("Dialogue: 0,0:00:00.00,0:00:05.00,Default,,10,20,5,,Hello").data))
      ≠ some ((("Dialogue: 0,0:00:00.00,0:00:05.00,Default,,15,30,8,,Hello").data)) :=
  ⟨by decide, by decide⟩

/-- C3 amended: resampleASSv2 (and part_001) do scale dialogue margins by
the axis ratios with round-half-up: generally `⌊m·r + 1/2⌋` for integer
margins, and 10, 20, 5 at ratio 3/2 become 15, 30, 8. -/
theorem c3_margins_amended :
    (∀ (m : Nat) (r : Rat),
        margin001 r (natToStr m) = intToStr ((m : Rat) * r + 1/2).floor) ∧
    v2DialogueMargins (3/2) (3/2) (("10").data) (("20").data) (("5").data)
      = ((("15").data), (("30").data), (("8").data)) ∧
    margin001 (3/2) (("10").data) = (("15").data) ∧
    margin001 (3/2) (("20").data) = (("30").data) ∧
    margin001 (3/2) (("5").data) = (("8").data) := by
  refine ⟨?_, by decide, by decide, by decide, by decide⟩
  intro m r
  unfold margin001
  simp only [parseFloatGo_natToStr]
  rfl

/-- C4 counterexample: part_001's resolver (ProcessASS lines 67-69) aborts
— `return ""`, modelled as `none` — on a document without PlayRes
declarations, contradicting the claim that this stage always succeeds with
defaults. -/
theorem c4_resolver001_aborts :
    resolver001 [(("[Script Info]").data), (("Title: hi").data)] = none := by decide

/-- C4 amended: part_000's resolver does behave as claimed — it always
succeeds, defaults the source resolution to 1280x720 (ratios 3/2), and
inserts the target declarations after the `[Script Info]` header, or
synthesizes that header at document start when it is missing; each
header-anchored insertion also leaves one blank line.  part_001 instead
aborts and part_002 returns its input unresampled. -/
theorem c4_resolver000_defaults :
    (∀ (r : List Char) (rs : List (List Char)),
      (∀ l ∈ (("[Script Info]").data) :: r :: rs,
          isPlayResDecl (("playresx").data) l = none) →
      (∀ l ∈ (("[Script Info]").data) :: r :: rs,
          isPlayResDecl (("playresy").data) l = none) →
      allWsL r = false →
      resolver000 ((("[Script Info]").data) :: r :: rs) =
        (3/2, 3/2,
          (("[Script Info]").data) :: (("PlayResY: 1080").data) :: [] ::
            (("PlayResX: 1920").data) :: [] :: r :: rs)) ∧
    (∀ ls : List (List Char),
      (∀ l ∈ ls, isPlayResDecl (("playresx").data) l = none) →
      (∀ l ∈ ls, isPlayResDecl (("playresy").data) l = none) →
      (∀ l ∈ ls, isScriptInfoHeader l = false) →
      resolver000 ls =
        (3/2, 3/2,
          (("[Script Info]").data) :: (("PlayResY: 1080").data) :: [] ::
            (("PlayResX: 1920").data) :: ls)) :=
  ⟨resolver000_inserts, resolver000_synth⟩

/-- C4 witness: the amended resolver theorem applied to the concrete
header-plus-title document. -/
theorem c4_resolver000_defaults_witness :
    resolver000 [(("[Script Info]").data), (("Title: x").data)]
      = (3/2, 3/2,
          [(("[Script Info]").data), (("PlayResY: 1080").data), [],
           (("PlayResX: 1920").data), [], (("Title: x").data)]) :=
  c4_resolver000_defaults.1 (("Title: x").data) [] (by decide) (by decide) (by decide)

/-- C5 counterexample: part_000's `scaleXYList` — the function applied to
`\clip`/`\iclip` vector arguments — does not reset the x/y alternation at a
command letter: in `m 0 l 5 5` at ratios (2, 3) the number after `l` is
scaled by ratioY giving `m 0 l 15 10`, while the claimed reset would scale
it by ratioX giving `m 0 l 10 15`. -/
theorem c5_no_reset_in_scaleXYList :
    scaleXYList 2 3 (("m 0 l 5 5").data) = (("m 0 l 15 10").data) ∧
    (("m 0 l 15 10").data) ≠ (("m 0 l 10 15").data) :=
  ⟨by decide, by decide⟩

/-- C5 amended: numeric path tokens scale alternately x-then-y starting
with x in both path scalers; only resampleASSv2's `transformDrawing` resets
the alternation at a recognized command letter (emitting the letter
lowercased and the coordinates reformatted to three decimals), while
part_000's `scaleXYList` alternates by global numeric index and leaves
command letters byte-for-byte. -/
theorem c5_alternation_amended :
    transformDrawing 0 0 2 3 (("m 0 l 5 5").data) = (("m 0.000 l 10.000 15.000").data) ∧
    transformDrawing 0 0 (3/2) (3/2) (("m 0 0 l 100 0 100 100 l 0 100").data)
      = (("m 0.000 0.000 l 150.000 0.000 150.000 150.000 l 0.000 150.000").data) ∧
    scaleXYList (3/2) (3/2) (("m 0 0 l 100 0 100 100 l 0 100").data)
      = (("m 0 0 l 150 0 150 150 l 0 150").data) ∧
    scaleXYList 2 3 (("m 0 l 5 5").data) = (("m 0 l 15 10").data) :=
  ⟨by decide, by decide, by decide, by decide⟩

/-- C6: on the spec's example `\t(0,500,\fs20\pos(10,10))` at ratios 2 the
claimed output is produced by the eleven global passes alone (they already
rewrite inside `\t(...)`); the unwrapping loop body then rescales the
already-scaled tags — one `ReplaceAllStringFunc` pass maps
`\t(0,500,\fs40)` to `\t(0,500,\fs80)` with the leading parameters kept —
and the loop guard stays true, so the function never returns the claimed
result (compare C1). -/
theorem c6_nested_transform_double_scales :
    scaleTagsPre 2 2 (("\\t(0,500,\\fs20\\pos(10,10))").data)
      = (("\\t(0,500,\\fs40\\pos(20,20))").data) ∧
    tPass 2 2 9 (("\\t(0,500,\\fs40)").data) = some ((("\\t(0,500,\\fs80)").data)) ∧
    tMatch (("\\t(0,500,\\fs80)").data) = true :=
  ⟨by decide, by decide, by decide⟩

/-- C7 counterexample: part_000's clip handling takes the rectangle branch
for `\clip(2,m 30 40 50)` (the content does not start with a letter) and
its global number substitutions scale the leading scale-level parameter:
the `2` becomes `3` at ratios 3/2 instead of being preserved. -/
theorem c7_lead_param_scaled_in_part000 :
    scaleTagsPre (3/2) (3/2) (("\\clip(2,m 30 40 50)").data)
      = (("\\clip(3,m 45 60 75)").data) ∧
    (("\\clip(3,m 45 60 75)").data) ≠ (("\\clip(2,m 45 60 75)").data) :=
  ⟨by decide, by decide⟩

/-- C7 amended: in part_001's `processOverrideContent` the claim holds: for
a clip argument made of a digit-only lead, a comma and a path containing a
letter, the lead is preserved verbatim (unscaled) and only the path tokens
after the comma are scaled. -/
theorem c7_lead_param_preserved_001 (fn : List Char) (RX RY : Rat) (lead rest : List Char)
    (h2 : lead.all goDigit = true) (h3 : rest.any goAlpha = true) :
    clip001Inside fn RX RY (lead ++ ',' :: rest)
      = '\\' :: fn ++ '(' :: lead ++ (", ".data)
          ++ scalePathTokens RX RY (tokenizePath (goTrim rest)) ++ [')'] := by
  have hdig : ∀ c ∈ lead, goDigit c = true := by
    intro c hc
    exact List.all_eq_true.mp h2 c hc
  have halpha : (lead ++ ',' :: rest).any goAlpha = true := by
    simp only [List.any_append, List.any_cons, Bool.or_eq_true]
    right; right
    exact h3
  have hsplit := splitByCommasN_split lead rest (fun c hc => goDigit_ne_comma (hdig c hc))
  have htrim : goTrim lead = lead :=
    goTrim_of_not_space (fun c hc => goDigit_not_space (hdig c hc))
  rw [clip001Inside, if_pos halpha, hsplit]
  simp only [List.length_cons, List.length_nil, List.getD_cons_zero, List.getD_cons_succ,
    ge_iff_le, Nat.le_refl, if_true, reduceIte]
  rw [htrim, htrim, goTrim_idem]

/-- C7 witness: the preservation theorem applied to the spec's path at
ratios 3/2 with scale-level parameter 1. -/
theorem c7_lead_param_preserved_001_witness :
    ((("1").data).all goDigit = true) ∧
    clip001Inside (("clip").data) (3/2) (3/2) (("1,m 0 0 l 100 0 100 100 l 0 100").data)
      = (("\\clip(1, m 0 0 l 150 0 150 150 l 0 150)").data) := by
  refine ⟨by decide, ?_⟩
  have h := c7_lead_param_preserved_001 (("clip").data) (3/2) (3/2) (("1").data)
      (("m 0 0 l 100 0 100 100 l 0 100").data) (by decide) (by decide)
  rw [show (("1,m 0 0 l 100 0 100 100 l 0 100").data)
        = (("1").data) ++ ',' :: (("m 0 0 l 100 0 100 100 l 0 100").data) by decide]
  rw [h]
  decide

/-- C8: a dialogue line whose payload has fewer commas than the ten fields
part_000 expects (the hardcoded standard events format) is emitted
byte-for-byte unchanged, for any ratios and any fuel, and processing
continues (the function returns a value rather than failing). -/
theorem c8_malformed_dialogue_unchanged (rx ry : Rat) (fuel : Nat) (ln : List Char)
    (h : countCh ',' ln < 9) : processDialogue000F rx ry fuel ln = some ln := by
  unfold processDialogue000F
  by_cases hd : isDialogue000 ln
  · rw [if_pos hd, if_pos (splitNPT_length_of_few ln h)]
  · rw [if_neg hd]

/-- C8 witness: the pass-through theorem applied to a concrete malformed
dialogue line with two commas. -/
theorem c8_malformed_dialogue_unchanged_witness :
    countCh ',' (("Dialogue: 0,1,2").data) < 9 ∧
    processDialogue000F 1 1 3 (("Dialogue: 0,1,2").data)
      = some ((("Dialogue: 0,1,2").data)) :=
  ⟨by decide, c8_malformed_dialogue_unchanged 1 1 3 (("Dialogue: 0,1,2").data) (by decide)⟩

/-- C9 counterexample: at ratios 1 the output is not textually unchanged:
resampleASSv2 reprints `\pos(100,200)` as `\pos(100.000,200.000)`, and
part_000's formatter rewrites the tag argument `0.125` to `0.12` (a numeric
change) and `20.50` to `20.5`. -/
theorem c9_not_textually_unchanged :
    v2PosPass 1 1 (("\\pos(100,200)").data) = (("\\pos(100.000,200.000)").data) ∧
    (("\\pos(100.000,200.000)").data) ≠ (("\\pos(100,200)").data) ∧
    scaleNumberString (("0.125").data) 1 = (("0.12").data) ∧
    (("0.12").data) ≠ (("0.125").data) :=
  ⟨by decide, by decide, by decide, by decide⟩

/-- C9 amended: at ratio 1 part_000's number rewriting is the textual
identity on every canonical integer literal (the common case for ASS tag
arguments), while decimal literals may be reformatted (trailing zeros
stripped, more than two decimals rounded) and resampleASSv2 reformats
coordinates to three decimals regardless. -/
theorem c9_integer_values_unchanged :
    (∀ i : Int, scaleNumberString (intToStr i) 1 = intToStr i) ∧
    scaleNumberString (("20.50").data) 1 = (("20.5").data) :=
  ⟨scaleNumberString_int_one, by decide⟩

/-- C10: part_000's `generateOutputName` returns the first candidate name —
`<base>_Limenime.ass`, then `<base>_Limenime(n).ass` for n = 1, 2, ... —
that does not exist on the (abstracted) filesystem, so the returned path
never refers to an existing file, and every earlier candidate did exist. -/
theorem c10_output_name_fresh (ex : List Char → Bool) (input : List Char)
    (h : ∃ n, ex (candName (goTrimSuffix input (extGo input)) n) = false) :
    ex (generateOutputName ex input h) = false ∧
      ∀ m, m < Nat.find h → ex (candName (goTrimSuffix input (extGo input)) m) = true := by
  refine ⟨Nat.find_spec h, ?_⟩
  intro m hm
  have h2 := Nat.find_min h hm
  simpa using h2

/-- C10 witness: on the empty filesystem the name returned for `a.srt` does
not exist there. -/
theorem c10_output_name_fresh_witness :
    exEmpty (generateOutputName exEmpty (("a.srt").data) ⟨0, rfl⟩) = false :=
  (c10_output_name_fresh exEmpty (("a.srt").data) ⟨0, rfl⟩).1
